import Mathlib

/-!
Shallow embedding of the rustgem vGEM fence driver
(`drivers/gpu/drm/rustgem/{file.rs, fence.rs}` together with the kernel
abstractions `rust/kernel/time/timer.rs`, `rust/kernel/timer.rs` and
`rust/kernel/dma_resv.rs`) and proofs about the fence lifecycle,
handle-table and attach/signal protocol.

Machine integers are modelled as `Nat` with explicit masks where overflow
matters.  Fallible kernel allocation (`Box::try_new`, `xa_store` GFP
failure) is modelled as always succeeding: the claims under study are not
about allocation failure, and every allocation-failure path in the source
merely propagates `ENOMEM`.
-/

namespace RustVgem

/-- Kernel error codes returned by the driver, plus an opaque constructor
for errors propagated from external collaborators. -/
inductive KErr where
  | EINVAL
  | ENOENT
  | EBUSY
  | ETIMEDOUT
  | ENOMEM
  | EExt (code : Nat)
deriving DecidableEq, Repr

/-- Result of running one driver entry point: a Rust `Ok` value, an `Err`
code, or a Rust panic (e.g. `Option::unwrap` on `None`). -/
inductive Outcome (α : Type) where
  | ok (a : α)
  | err (e : KErr)
  | panicked
deriving DecidableEq, Repr

/-- Usage class under which a fence is published into a reservation. -/
inductive Usage where
  | read
  | write
deriving DecidableEq, Repr

/-- List lookup by position (`none` when out of range). -/
def lget {α : Type} : List α → Nat → Option α
  | [], _ => none
  | x :: _, 0 => some x
  | _ :: rest, n + 1 => lget rest n

/-- List update by position (no-op when out of range). -/
def lset {α : Type} : List α → Nat → α → List α
  | [], _, _ => []
  | _ :: rest, 0, v => v :: rest
  | x :: rest, n + 1, v => x :: lset rest n v

/-- Contents of one xarray entry as used by `File::signal`/`File::attach`:
the stored value is a `Box<Option<VgemFence>>`, i.e. either a live fence
(identified here by its index into the fence heap) or an emptied box. -/
abbrev Entry := Option Nat

/-- The per-session fence table (`File { fences: xarray::XArray<Box<Option<VgemFence>>> }`).
Position `h` models xarray index `h`; `none` means the array holds no entry
at that index, `some e` means an entry with box contents `e` is stored. -/
abbrev Table := List (Option Entry)

/-- Reads the xarray entry at index `h` (`none` when the index is vacant,
including indices beyond the populated range). -/
def tget (t : Table) (h : Nat) : Option Entry :=
  (lget t h).getD none

/-- Stores an entry at index `h`, growing the backing list with vacant
positions as needed (an `xa_store` at any index succeeds in this model). -/
def tset : Table → Nat → Option Entry → Table
  | [], 0, v => [v]
  | [], n + 1, v => none :: tset [] n v
  | _ :: rest, 0, v => v :: rest
  | x :: rest, n + 1, v => x :: tset rest n v

/-- Linear scan for the first vacant index at or after `i`, with explicit
fuel; models the search performed by `__xa_alloc` over an `ALLOC1` xarray. -/
def findFreeFrom (t : Table) : Nat → Nat → Nat
  | 0, i => i
  | fuel + 1, i => if tget t i = none then i else findFreeFrom t fuel (i + 1)

/-- Modelled from the spec: `kernel::xarray::XArray::alloc` (the binding is
not under src/), over an `ALLOC1` array — "reserves the lowest available
non-zero integer handle, stores the value, returns the handle". -/
def xaAlloc (t : Table) (e : Entry) : Nat × Table :=
  let h := findFreeFrom t (t.length + 1) 1
  (h, tset t h (some e))

/-- Modelled from the spec: `kernel::xarray::XArray::replace` (the binding
is not under src/) — "atomically swaps the slot at `handle`, returning what
was previously stored"; a vacant index reports `none` as the old value
(the `Ok(None)` arm matched by `File::signal`). -/
def xaReplace (t : Table) (h : Nat) (e : Entry) : Option Entry × Table :=
  (tget t h, tset t h (some e))

/-- Modelled from the spec: the reservation collaborator (`DmaResv` wraps
external C state not under src/).  `readyRead`/`readyWrite` are the values
`dma_resv_test_signaled` reports for the usage class derived from a read
(resp. write) request; `addErr` is the externally determined result of
`dma_resv_reserve_fences` inside `add_fences` (`none` = success); `fences`
records the fences published into the object with their usage class. -/
structure Resv where
  readyRead : Bool
  readyWrite : Bool
  addErr : Option KErr
  fences : List (Nat × Usage)
deriving DecidableEq, Repr

/-- Modelled from the spec: `usage_for(write: bool) → UsageClass`, the
usage class a request with the given write flag is checked against. -/
def usageRw (write : Bool) : Usage :=
  if write then Usage.write else Usage.read

/-- Modelled from the spec: `test_signaled(UsageClass) → boolean` of the
reservation collaborator (`DmaResv::test_signaled` calls into external C). -/
def testSignaled (r : Resv) : Usage → Bool
  | Usage.read => r.readyRead
  | Usage.write => r.readyWrite

/-- The `DmaResv::add_fences` operation (`rust/kernel/dma_resv.rs`): locks,
reserves space (which may fail with an external error), and on success adds
the fence under the given usage; on failure the reservation is unchanged. -/
def addFences (r : Resv) (f : Nat) (u : Usage) : Option KErr × Resv :=
  match r.addErr with
  | none => (none, { r with fences := r.fences ++ [(f, u)] })
  | some e => (some e, r)

/-- State of one expiry timer: the jiffies deadline it was scheduled at and
whether a firing is still pending. -/
structure TimerSt where
  deadline : Nat
  pending : Bool
deriving DecidableEq, Repr

/-- Whole-session state: the external buffer handles with their reservation
objects, the heap of fence signaled flags (a fence is its index), the
parallel heap of expiry timers for the fences, the per-session xarray of
fence handles, and the current monotonic time (jiffies, in milliseconds:
`msecs_to_jiffies` is modelled as the identity). -/
structure S where
  bufs : List (Nat × Resv)
  fences : List Bool
  timers : List TimerSt
  table : Table
  now : Nat
deriving DecidableEq, Repr

/-- External buffer lookup (`shmem::Object::lookup_handle`): resolves a
caller-supplied integer handle to its reservation, `none` when absent. -/
def lookupBuf : List (Nat × Resv) → Nat → Option Resv
  | [], _ => none
  | (k, r) :: rest, h => if k = h then some r else lookupBuf rest h

/-- Updates the reservation stored for buffer handle `h`. -/
def setBuf : List (Nat × Resv) → Nat → Resv → List (Nat × Resv)
  | [], _, _ => []
  | (k, r) :: rest, h, r2 => if k = h then (k, r2) :: rest
      else (k, r) :: setBuf rest h r2

/-- Reads the signaled flag of a fence (`dma_fence_is_signaled`); an index
outside the heap reads as unsignaled. -/
def fget (fs : List Bool) (f : Nat) : Bool :=
  (lget fs f).getD false

/-- Modelled from the spec: `kernel::dma_fence` signal (binding not under
src/) — "transitions the fence to signaled if not already"; per the
underlying `dma_fence_signal`, an already-signaled fence reports `EINVAL`
while the flag (monotone false→true) is left untouched. -/
def fenceSignal (fs : List Bool) (f : Nat) : Option KErr × List Bool :=
  if fget fs f then (some KErr.EINVAL, fs) else (none, lset fs f true)

/-- Constant `VGEM_FENCE_WRITE` (bit 0) of the attach ioctl flags. -/
def vgemFenceWrite : Nat := 1

/-- The u32 complement `!VGEM_FENCE_WRITE` used by the flag check. -/
def notWriteMask : Nat := 2 ^ 32 - 2

/-- The fixed expiry timeout `Duration::from_secs(10)` in milliseconds. -/
def timeoutMs : Nat := 10000

/-- The fence/timer creation in `VgemFence::create`: a fresh unsignaled
fence is appended to the heap and its one-shot expiry timer is armed at
`now + 10s` (`schedule_at(jiffies_later(msecs_to_jiffies(10_000)))`).
Returns the identity of the new fence. -/
def vgemFenceCreate (s : S) : Nat × S :=
  (s.fences.length,
    { s with
      fences := s.fences ++ [false]
      timers := s.timers ++ [⟨s.now + timeoutMs, true⟩] })

/-- Arguments of the attach ioctl (`struct drm_vgem_fence_attach`). -/
structure AttachArgs where
  handle : Nat
  flags : Nat
  outFence : Nat
  pad : Nat
deriving DecidableEq, Repr

/-- Arguments of the signal ioctl (`struct drm_vgem_fence_signal`). -/
structure SignalArgs where
  fence : Nat
  flags : Nat
deriving DecidableEq, Repr

/-- The attach entry point `File::attach`
(`drivers/gpu/drm/rustgem/file.rs`).  Returns the ioctl result, the value
written to `data.out_fence` (`none` when the field is left untouched), and
the successor state.  Mirrors the source line by line: flag and pad
validation, buffer lookup, fence + timer creation, conflict check with
early signal-and-`EBUSY`, publication via `add_fences`, and handle
allocation whose failure is silently ignored (here allocation always
succeeds). -/
def attach (s : S) (a : AttachArgs) : Outcome Nat × Option Nat × S :=
  if a.flags &&& notWriteMask ≠ 0 then (Outcome.err KErr.EINVAL, none, s)
  else if a.pad ≠ 0 then (Outcome.err KErr.EINVAL, none, s)
  else
    match lookupBuf s.bufs a.handle with
    | none => (Outcome.err KErr.ENOENT, none, s)
    | some resv =>
      let fs1 := vgemFenceCreate s
      let fid := fs1.1
      let s1 := fs1.2
      let write : Bool := a.flags &&& vgemFenceWrite != 0
      let usage := usageRw write
      if testSignaled resv usage = false then
        match fenceSignal s1.fences fid with
        | (none, fs) => (Outcome.err KErr.EBUSY, none, { s1 with fences := fs })
        | (some e, fs) => (Outcome.err e, none, { s1 with fences := fs })
      else
        let pubUsage := if write then Usage.write else Usage.read
        match addFences resv fid pubUsage with
        | (none, resv2) =>
          let s2 := { s1 with bufs := setBuf s1.bufs a.handle resv2 }
          let idt := xaAlloc s2.table (some fid)
          (Outcome.ok 0, some idt.1, { s2 with table := idt.2 })
        | (some _, _) =>
          match fenceSignal s1.fences fid with
          | (none, fs) => (Outcome.ok 0, none, { s1 with fences := fs })
          | (some e, fs) => (Outcome.err e, none, { s1 with fences := fs })

/-- The signal entry point `File::signal`
(`drivers/gpu/drm/rustgem/file.rs`).  Mirrors the source: flag validation,
consuming `replace` of the xarray slot with an emptied box, `ENOENT` when
the index held no entry, and — exactly as
`fence.unwrap().unwrap()` in the source — a panic when the entry is a previously emptied
box (`Box` of `None`); otherwise the timeout check and the manual signal. -/
def signal (s : S) (g : SignalArgs) : Outcome Nat × S :=
  if g.flags ≠ 0 then (Outcome.err KErr.EINVAL, s)
  else
    let ot := xaReplace s.table g.fence none
    let s1 := { s with table := ot.2 }
    match ot.1 with
    | none => (Outcome.err KErr.ENOENT, s1)
    | some none => (Outcome.panicked, s1)
    | some (some fid) =>
      if fget s1.fences fid then (Outcome.err KErr.ETIMEDOUT, s1)
      else
        match fenceSignal s1.fences fid with
        | (none, fs) => (Outcome.ok 0, { s1 with fences := fs })
        | (some e, fs) => (Outcome.err e, { s1 with fences := fs })

/-- One firing of the expiry timer of fence `f`, as set up by
`VgemFence::create` and dispatched by `RawTimer::bridge`
(`rust/kernel/time/timer.rs`): only a pending timer whose deadline has been
reached fires; the closure signals the fence discarding the result
(`let _ = fence.signal()`) and returns `Next::Done`, so the bridge does not
reschedule and the timer retires. -/
def fireTimer (s : S) (f : Nat) : S :=
  match lget s.timers f with
  | none => s
  | some t =>
    if t.pending ∧ t.deadline ≤ s.now then
      { s with
        fences := (fenceSignal s.fences f).2
        timers := lset s.timers f { t with pending := false } }
    else s

/-- Passage of time: the jiffies counter advances by `d`. -/
def tick (s : S) (d : Nat) : S :=
  { s with now := s.now + d }

/-- One step of the whole system: a client attach or signal call with
arbitrary arguments, an expiry-timer firing, or the passage of time. -/
inductive Step : S → S → Prop where
  | attach (s : S) (a : AttachArgs) : Step s (attach s a).2.2
  | signal (s : S) (g : SignalArgs) : Step s (signal s g).2
  | fire (s : S) (f : Nat) : Step s (fireTimer s f)
  | tick (s : S) (d : Nat) : Step s (tick s d)

/-- Events of a timer wrapper destructor, for stating the teardown
ordering contract: freeing the captured state versus synchronously
shutting down the timer (cancel plus wait for an in-flight firing). -/
inductive DropEvent where
  | freeCaptured
  | syncShutdown
deriving DecidableEq, Repr

/-- Index of the first occurrence of an event in a destructor sequence. -/
def idxOf : List DropEvent → DropEvent → Nat
  | [], _ => 0
  | x :: rest, e => if x = e then 0 else idxOf rest e + 1

/-- Destructor order of `Timer::drop` in `rust/kernel/timer.rs`:
`core::ptr::drop_in_place(&mut (*self.0).inner)` runs first (freeing the
captured state the callback reads through `timer.inner()`), and only then
`bindings::del_timer_sync(self.raw())` cancels the timer and waits for an
in-flight firing. -/
def timerDropSeq : List DropEvent :=
  [DropEvent.freeCaptured, DropEvent.syncShutdown]

/-- Destructor order of `FnTimer::drop` in `rust/kernel/time/timer.rs`:
the drop body runs `raw_timer().shutdown()` (a synchronous
`timer_shutdown_sync`), and the captured closure field `f` is deallocated
only afterwards, when the struct fields are dropped. -/
def fnTimerDropSeq : List DropEvent :=
  [DropEvent.syncShutdown, DropEvent.freeCaptured]

/-- The teardown safety contract: the synchronous timer shutdown happens
strictly before the captured state is freed. -/
def shutdownBeforeFree (l : List DropEvent) : Prop :=
  idxOf l DropEvent.syncShutdown < idxOf l DropEvent.freeCaptured

/-- An uncontended reservation whose publication succeeds. -/
def resvOpen : Resv := ⟨true, true, none, []⟩

/-- A reservation with a conflicting unsignaled operation outstanding. -/
def resvBusy : Resv := ⟨false, false, none, []⟩

/-- An uncontended reservation whose `add_fences` fails externally. -/
def resvAddFail : Resv := ⟨true, true, some (KErr.EExt 12), []⟩

/-- A fresh session holding one buffer (handle 5) with `resvOpen`. -/
def sOpen : S := ⟨[(5, resvOpen)], [], [], [], 0⟩

/-- A fresh session holding one buffer (handle 5) with `resvBusy`. -/
def sBusy : S := ⟨[(5, resvBusy)], [], [], [], 0⟩

/-- A fresh session holding one buffer (handle 5) with `resvAddFail`. -/
def sAddFail : S := ⟨[(5, resvAddFail)], [], [], [], 0⟩

/-- Attach arguments requesting a read fence on buffer handle 5. -/
def aRead : AttachArgs := ⟨5, 0, 0, 0⟩

/-- A session whose only fence (fence 0) is already signaled. -/
def sSignaled : S := ⟨[], [true], [⟨timeoutMs, true⟩], [none, some (some 0)], 0⟩

/-- A session with one armed, already-due timer for unsignaled fence 0. -/
def sArmed : S := ⟨[], [false], [⟨0, true⟩], [], 0⟩

/-- A session whose handle 1 was consumed by a signal call. -/
def sConsumed : S := ⟨[(5, resvOpen)], [true], [⟨timeoutMs, false⟩], [none, some none], 0⟩

theorem lget_append_self {α : Type} (l : List α) (x : α) :
    lget (l ++ [x]) l.length = some x := by
  induction l with
  | nil => rfl
  | cons y rest ih => simpa [lget] using ih

theorem lget_append_lt {α : Type} (l : List α) (x : α) (i : Nat)
    (h : i < l.length) : lget (l ++ [x]) i = lget l i := by
  induction l generalizing i with
  | nil => cases h
  | cons y rest ih =>
    cases i with
    | zero => rfl
    | succ j => simpa [lget] using ih j (Nat.lt_of_succ_lt_succ h)

theorem lget_lt_length {α : Type} {l : List α} {i : Nat} {x : α}
    (h : lget l i = some x) : i < l.length := by
  induction l generalizing i with
  | nil => cases h
  | cons y rest ih =>
    cases i with
    | zero => simp [List.length]
    | succ j =>
      have := ih (i := j) (by simpa [lget] using h)
      simpa [List.length] using Nat.succ_lt_succ this

theorem lget_append_of_get {α : Type} {l : List α} {i : Nat} {x : α} (y : α)
    (h : lget l i = some x) : lget (l ++ [y]) i = some x := by
  rw [lget_append_lt l y i (lget_lt_length h)]
  exact h

theorem lget_lset_self {α : Type} (l : List α) (i : Nat) (v : α)
    (h : i < l.length) : lget (lset l i v) i = some v := by
  induction l generalizing i with
  | nil => cases h
  | cons y rest ih =>
    cases i with
    | zero => rfl
    | succ j => simpa [lget, lset] using ih j (Nat.lt_of_succ_lt_succ h)

theorem lget_lset_ne {α : Type} (l : List α) (i j : Nat) (v : α)
    (h : i ≠ j) : lget (lset l i v) j = lget l j := by
  induction l generalizing i j with
  | nil => rfl
  | cons y rest ih =>
    cases i with
    | zero => cases j with
      | zero => exact absurd rfl h
      | succ k => rfl
    | succ i' => cases j with
      | zero => rfl
      | succ k => simpa [lget, lset] using ih i' k (fun hc => h (by rw [hc]))

theorem tget_tset_self (t : Table) (h : Nat) (v : Option Entry) :
    tget (tset t h v) h = v := by
  induction h generalizing t with
  | zero => cases t <;> rfl
  | succ n ih => cases t <;> simpa [tget, tset, lget] using ih _

theorem tget_tset_ne (t : Table) (h j : Nat) (v : Option Entry)
    (hne : h ≠ j) : tget (tset t h v) j = tget t j := by
  induction h generalizing t j with
  | zero =>
    cases t with
    | nil => cases j with
      | zero => exact absurd rfl hne
      | succ k => rfl
    | cons x rest => cases j with
      | zero => exact absurd rfl hne
      | succ k => rfl
  | succ n ih =>
    cases t with
    | nil =>
      cases j with
      | zero => rfl
      | succ k =>
        simpa [tget, tset, lget] using ih [] k (fun hc => hne (by rw [hc]))
    | cons x rest =>
      cases j with
      | zero => rfl
      | succ k =>
        simpa [tget, tset, lget] using ih rest k (fun hc => hne (by rw [hc]))

theorem tget_of_le_length (t : Table) (i : Nat) (h : t.length ≤ i) :
    tget t i = none := by
  induction t generalizing i with
  | nil => cases i <;> rfl
  | cons x rest ih =>
    cases i with
    | zero => cases h
    | succ j => simpa [tget, lget] using ih j (Nat.le_of_succ_le_succ h)

theorem findFreeFrom_spec (t : Table) (fuel i : Nat)
    (h : t.length < i + fuel) :
    i ≤ findFreeFrom t fuel i ∧ tget t (findFreeFrom t fuel i) = none ∧
      ∀ j, i ≤ j → j < findFreeFrom t fuel i → tget t j ≠ none := by
  induction fuel generalizing i with
  | zero =>
    refine ⟨Nat.le_refl i, tget_of_le_length t i (by omega), ?_⟩
    intro j hij hji
    exact absurd hji (by simp [findFreeFrom, Nat.not_lt.mpr hij])
  | succ fuel ih =>
    by_cases hfree : tget t i = none
    · refine ⟨by simp [findFreeFrom, hfree], by simp [findFreeFrom, hfree], ?_⟩
      intro j hij hji
      simp [findFreeFrom, hfree] at hji
      omega
    · have hlen : t.length < (i + 1) + fuel := by omega
      obtain ⟨h1, h2, h3⟩ := ih (i + 1) hlen
      refine ⟨?_, ?_, ?_⟩
      · simp only [findFreeFrom, hfree, if_false]
        omega
      · simpa [findFreeFrom, hfree] using h2
      · intro j hij hji
        simp only [findFreeFrom, hfree, if_false] at hji
        rcases Nat.eq_or_lt_of_le hij with hj | hj
        · simpa [← hj] using hfree
        · exact h3 j hj hji

theorem xaAlloc_pos (t : Table) (e : Entry) : 1 ≤ (xaAlloc t e).1 :=
  (findFreeFrom_spec t (t.length + 1) 1 (by omega)).1

theorem xaAlloc_free (t : Table) (e : Entry) : tget t (xaAlloc t e).1 = none :=
  (findFreeFrom_spec t (t.length + 1) 1 (by omega)).2.1

theorem xaAlloc_lowest (t : Table) (e : Entry) :
    ∀ j, 1 ≤ j → j < (xaAlloc t e).1 → tget t j ≠ none :=
  (findFreeFrom_spec t (t.length + 1) 1 (by omega)).2.2

theorem xaAlloc_stores (t : Table) (e : Entry) :
    tget (xaAlloc t e).2 (xaAlloc t e).1 = some e :=
  tget_tset_self t _ (some e)

theorem xaAlloc_preserves (t : Table) (e : Entry) (j : Nat)
    (h : j ≠ (xaAlloc t e).1) : tget (xaAlloc t e).2 j = tget t j :=
  tget_tset_ne t _ j (some e) (fun hc => h hc.symm)

theorem fget_append_self (l : List Bool) (b : Bool) :
    fget (l ++ [b]) l.length = b := by
  simp [fget, lget_append_self]

theorem fget_true_lt_length {l : List Bool} {f : Nat} (h : fget l f = true) :
    f < l.length := by
  unfold fget at h
  cases hg : lget l f with
  | none => simp [hg] at h
  | some x => exact lget_lt_length hg

theorem fget_append_of_true {l : List Bool} {f : Nat} (b : Bool)
    (h : fget l f = true) : fget (l ++ [b]) f = true := by
  unfold fget at h ⊢
  rw [lget_append_lt l b f (fget_true_lt_length h)]
  exact h

theorem lset_append_self {α : Type} (l : List α) (x v : α) :
    lset (l ++ [x]) l.length v = l ++ [v] := by
  induction l with
  | nil => rfl
  | cons y rest ih => simpa [lset] using ih

theorem fget_lset_self {l : List Bool} {f : Nat} (h : f < l.length)
    (b : Bool) : fget (lset l f b) f = b := by
  simp [fget, lget_lset_self l f b h]

theorem fget_lset_true_of_true {l : List Bool} {f g : Nat}
    (h : fget l f = true) : fget (lset l g true) f = true := by
  by_cases hfg : g = f
  · subst hfg
    exact fget_lset_self (fget_true_lt_length h) true
  · simpa [fget, lget_lset_ne l g f true hfg] using h

theorem fenceSignal_preserves_true {l : List Bool} {f : Nat} (g : Nat)
    (h : fget l f = true) : fget (fenceSignal l g).2 f = true := by
  unfold fenceSignal
  by_cases hg : fget l g
  · simpa [hg] using h
  · simpa [hg] using fget_lset_true_of_true h

theorem fenceSignal_of_false {l : List Bool} {f : Nat}
    (h : fget l f = false) :
    fenceSignal l f = (none, lset l f true) := by
  simp [fenceSignal, h]

theorem fenceSignal_of_true {l : List Bool} {f : Nat}
    (h : fget l f = true) :
    fenceSignal l f = (some KErr.EINVAL, l) := by
  simp [fenceSignal, h]

theorem attach_preserves_true (s : S) (a : AttachArgs) {f : Nat}
    (h : fget s.fences f = true) : fget (attach s a).2.2.fences f = true := by
  have hbase : fget (s.fences ++ [false]) f = true := fget_append_of_true false h
  unfold attach vgemFenceCreate
  by_cases h1 : a.flags &&& notWriteMask ≠ 0
  · simpa [h1] using h
  by_cases h2 : a.pad ≠ 0
  · simpa [h1, h2] using h
  cases hlk : lookupBuf s.bufs a.handle with
  | none => simpa [h1, h2, hlk] using h
  | some resv =>
    cases ht : testSignaled resv (usageRw (a.flags &&& vgemFenceWrite != 0)) with
    | false =>
      rcases hfs : fenceSignal (s.fences ++ [false]) s.fences.length with ⟨o, fs⟩
      have hfs2 : fget fs f = true := by
        have := fenceSignal_preserves_true (l := s.fences ++ [false])
          (f := f) s.fences.length hbase
        rwa [hfs] at this
      cases o <;> simp [h1, h2, hlk, ht, hfs, hfs2]
    | true =>
      cases hadd : resv.addErr with
      | none =>
        simpa [h1, h2, hlk, ht, addFences, hadd] using hbase
      | some e =>
        rcases hfs : fenceSignal (s.fences ++ [false]) s.fences.length with ⟨o, fs⟩
        have hfs2 : fget fs f = true := by
          have := fenceSignal_preserves_true (l := s.fences ++ [false])
            (f := f) s.fences.length hbase
          rwa [hfs] at this
        cases o <;> simp [h1, h2, hlk, ht, addFences, hadd, hfs, hfs2]

theorem signal_preserves_true (s : S) (g : SignalArgs) {f : Nat}
    (h : fget s.fences f = true) : fget (signal s g).2.fences f = true := by
  unfold signal
  by_cases h1 : g.flags ≠ 0
  · simpa [h1] using h
  cases hold : tget s.table g.fence with
  | none => simpa [h1, xaReplace, hold] using h
  | some e =>
    cases e with
    | none => simpa [h1, xaReplace, hold] using h
    | some fid =>
      by_cases hsig : fget s.fences fid
      · simpa [h1, xaReplace, hold, hsig] using h
      · rcases hfs : fenceSignal s.fences fid with ⟨o, fs⟩
        have hfs2 : fget fs f = true := by
          have := fenceSignal_preserves_true (l := s.fences) (f := f) fid h
          rwa [hfs] at this
        cases o <;> simp [h1, xaReplace, hold, hsig, hfs, hfs2]

theorem fireTimer_preserves_true (s : S) (g : Nat) {f : Nat}
    (h : fget s.fences f = true) : fget (fireTimer s g).fences f = true := by
  unfold fireTimer
  cases hlt : lget s.timers g with
  | none => simpa [hlt] using h
  | some t =>
    by_cases hc : t.pending = true ∧ t.deadline ≤ s.now
    · simpa [hlt, hc] using fenceSignal_preserves_true g h
    · simpa [hlt, hc] using h

theorem step_preserves_true {s s2 : S} (hstep : Step s s2) (f : Nat)
    (h : fget s.fences f = true) : fget s2.fences f = true := by
  cases hstep with
  | attach a => exact attach_preserves_true s a h
  | signal g => exact signal_preserves_true s g h
  | fire g => exact fireTimer_preserves_true s g h
  | tick d => exact h

theorem attach_busy_eq (s : S) (a : AttachArgs) (resv : Resv)
    (h1 : a.flags &&& notWriteMask = 0) (h2 : a.pad = 0)
    (h3 : lookupBuf s.bufs a.handle = some resv)
    (h4 : testSignaled resv (usageRw (a.flags &&& vgemFenceWrite != 0)) = false) :
    attach s a = (Outcome.err KErr.EBUSY, none,
      { s with fences := s.fences ++ [true],
               timers := s.timers ++ [⟨s.now + timeoutMs, true⟩] }) := by
  have hf : fget (s.fences ++ [false]) s.fences.length = false :=
    fget_append_self _ _
  simp [attach, vgemFenceCreate, h1, h2, h3, h4, fenceSignal_of_false hf,
    lset_append_self]

theorem attach_publish_eq (s : S) (a : AttachArgs) (resv : Resv)
    (h1 : a.flags &&& notWriteMask = 0) (h2 : a.pad = 0)
    (h3 : lookupBuf s.bufs a.handle = some resv)
    (h4 : testSignaled resv (usageRw (a.flags &&& vgemFenceWrite != 0)) = true)
    (h5 : resv.addErr = none) :
    attach s a = (Outcome.ok 0, some (xaAlloc s.table (some s.fences.length)).1,
      { s with
        bufs := setBuf s.bufs a.handle
          { resv with fences := resv.fences ++
              [(s.fences.length, usageRw (a.flags &&& vgemFenceWrite != 0))] }
        fences := s.fences ++ [false]
        timers := s.timers ++ [⟨s.now + timeoutMs, true⟩]
        table := (xaAlloc s.table (some s.fences.length)).2 }) := by
  cases hw : (a.flags &&& vgemFenceWrite != 0) with
  | false =>
    rw [hw] at h4
    simp only [usageRw, if_false, Bool.false_eq_true, ite_false] at h4
    simp [attach, vgemFenceCreate, h1, h2, h3, addFences, h5, usageRw, hw, h4]
  | true =>
    rw [hw] at h4
    simp only [usageRw, if_true, ite_true] at h4
    simp [attach, vgemFenceCreate, h1, h2, h3, addFences, h5, usageRw, hw, h4]

/-- C1: a `signal` call on a handle consumed by an earlier `signal` does
not return `ENOENT` as the claim (and the documentation of the function itself)
states: the consumed slot still holds the emptied box stored by the first
call, so `File::signal` reaches `fence.unwrap().unwrap()` on a
`Box`-of-`None` and panics.  A handle that was never allocated does report
`ENOENT` without touching any fence. -/
theorem claim_C1_consumed_handle_panics :
    (signal (attach sOpen aRead).2.2 ⟨1, 0⟩).1 = Outcome.ok 0 ∧
    tget (signal (attach sOpen aRead).2.2 ⟨1, 0⟩).2.table 1 = some none ∧
    (signal (signal (attach sOpen aRead).2.2 ⟨1, 0⟩).2 ⟨1, 0⟩).1 =
      Outcome.panicked ∧
    (signal sOpen ⟨999, 0⟩).1 = Outcome.err KErr.ENOENT ∧
    (signal sOpen ⟨999, 0⟩).2.fences = sOpen.fences := by decide

/-- C2 counterexample: with valid arguments, a resolvable buffer, a fully
signaled reservation, and an externally failing `add_fences`, `attach`
signals the fence but returns `Ok(0)` — success — instead of propagating
the external failure. -/
theorem claim_C2_counterexample :
    resvAddFail.addErr = some (KErr.EExt 12) ∧
    (attach sAddFail aRead).1 = Outcome.ok 0 ∧
    (attach sAddFail aRead).1 ≠ Outcome.err (KErr.EExt 12) ∧
    (attach sAddFail aRead).2.1 = none ∧
    fget (attach sAddFail aRead).2.2.fences 0 = true := by decide

/-- C2 (amended): when publication via `add_fences` fails, `attach`
signals and discards the newly created fence and produces no handle, but
it reports success (`Ok(0)`) to the caller; the external failure is not
propagated.  The reservation and the handle table are left unchanged. -/
theorem claim_C2_publish_failure_reports_success (s : S) (a : AttachArgs)
    (resv : Resv) (e : KErr)
    (h1 : a.flags &&& notWriteMask = 0) (h2 : a.pad = 0)
    (h3 : lookupBuf s.bufs a.handle = some resv)
    (h4 : testSignaled resv (usageRw (a.flags &&& vgemFenceWrite != 0)) = true)
    (h5 : resv.addErr = some e) :
    attach s a = (Outcome.ok 0, none,
      { s with fences := s.fences ++ [true],
               timers := s.timers ++ [⟨s.now + timeoutMs, true⟩] }) := by
  have hf : fget (s.fences ++ [false]) s.fences.length = false :=
    fget_append_self _ _
  simp [attach, vgemFenceCreate, h1, h2, h3, h4, addFences, h5,
    fenceSignal_of_false hf, lset_append_self]

theorem claim_C2_witness :
    resvAddFail.addErr = some (KErr.EExt 12) ∧
    attach sAddFail aRead = (Outcome.ok 0, none,
      { sAddFail with fences := [true], timers := [⟨timeoutMs, true⟩] }) := by
  refine ⟨rfl, ?_⟩
  have h := claim_C2_publish_failure_reports_success sAddFail aRead
    resvAddFail (KErr.EExt 12) (by decide) rfl (by decide) (by decide) rfl
  simpa using h

/-- C3: the claim states every timer wrapper shuts the timer down
strictly before the captured state is freed.  `FnTimer::drop`
(`rust/kernel/time/timer.rs`) does: shutdown runs in the drop body, fields
are freed after.  `Timer::drop` (`rust/kernel/timer.rs`, used by the
`VgemFence` of the rust-gem variant) does not: it runs `drop_in_place` on the
captured `inner` first and `del_timer_sync` only afterwards, so a firing
in between observes freed state. -/
theorem claim_C3_timer_drop_order :
    shutdownBeforeFree fnTimerDropSeq ∧ ¬ shutdownBeforeFree timerDropSeq := by
  unfold shutdownBeforeFree
  decide

/-- C4: an attach with valid arguments and a resolvable buffer whose
reservation is not fully signaled for the requested usage returns `EBUSY`,
signals the newly created fence, does not publish into the reservation
(buffers unchanged), and produces no handle (table unchanged, out_fence
untouched). -/
theorem claim_C4_busy_aborts_fence (s : S) (a : AttachArgs) (resv : Resv)
    (h1 : a.flags &&& notWriteMask = 0) (h2 : a.pad = 0)
    (h3 : lookupBuf s.bufs a.handle = some resv)
    (h4 : testSignaled resv (usageRw (a.flags &&& vgemFenceWrite != 0)) = false) :
    (attach s a).1 = Outcome.err KErr.EBUSY ∧
    (attach s a).2.1 = none ∧
    fget (attach s a).2.2.fences s.fences.length = true ∧
    (attach s a).2.2.bufs = s.bufs ∧
    (attach s a).2.2.table = s.table := by
  rw [attach_busy_eq s a resv h1 h2 h3 h4]
  exact ⟨rfl, rfl, fget_append_self s.fences true, rfl, rfl⟩

theorem claim_C4_witness :
    testSignaled resvBusy (usageRw (aRead.flags &&& vgemFenceWrite != 0)) =
      false ∧
    (attach sBusy aRead).1 = Outcome.err KErr.EBUSY ∧
    (attach sBusy aRead).2.1 = none ∧
    fget (attach sBusy aRead).2.2.fences 0 = true ∧
    (attach sBusy aRead).2.2.bufs = sBusy.bufs ∧
    (attach sBusy aRead).2.2.table = sBusy.table := by
  have h := claim_C4_busy_aborts_fence sBusy aRead resvBusy
    (by decide) rfl (by decide) (by decide)
  exact ⟨by decide, h.1, h.2.1, h.2.2.1, h.2.2.2.1, h.2.2.2.2⟩

/-- C6: an attach whose flags contain a bit other than `VGEM_FENCE_WRITE`
or whose pad is nonzero fails with `EINVAL` and the state is returned
untouched (no fence created, no timer armed, reservation neither read nor
modified); a signal with nonzero flags fails with `EINVAL` before the
handle table is consulted, likewise leaving the state untouched. -/
theorem claim_C6_validation (s : S) :
    (∀ a : AttachArgs, a.flags &&& notWriteMask ≠ 0 ∨ a.pad ≠ 0 →
        attach s a = (Outcome.err KErr.EINVAL, none, s)) ∧
    (∀ g : SignalArgs, g.flags ≠ 0 →
        signal s g = (Outcome.err KErr.EINVAL, s)) := by
  constructor
  · rintro a (h | h)
    · simp [attach, h]
    · by_cases h1 : a.flags &&& notWriteMask ≠ 0
      · simp [attach, h1]
      · simp [attach, h1, h]
  · intro g h
    simp [signal, h]

theorem claim_C6_witness :
    ((⟨5, 2, 0, 0⟩ : AttachArgs).flags &&& notWriteMask ≠ 0) ∧
    attach sOpen ⟨5, 2, 0, 0⟩ = (Outcome.err KErr.EINVAL, none, sOpen) ∧
    attach sOpen ⟨5, 0, 0, 9⟩ = (Outcome.err KErr.EINVAL, none, sOpen) ∧
    signal sOpen ⟨1, 7⟩ = (Outcome.err KErr.EINVAL, sOpen) :=
  ⟨by decide,
   (claim_C6_validation sOpen).1 ⟨5, 2, 0, 0⟩ (Or.inl (by decide)),
   (claim_C6_validation sOpen).1 ⟨5, 0, 0, 9⟩ (Or.inr (by decide)),
   (claim_C6_validation sOpen).2 ⟨1, 7⟩ (by decide)⟩

/-- C7: the fence signaled state is monotone along every execution of the
system (attach and signal calls with arbitrary arguments, timer firings,
passage of time): once `is_signaled` reads true it never reads false
again; consequently the false→true transition happens at most once — after
a step performs the transition, every later state is already signaled, so
no later step can transition the same fence again. -/
theorem claim_C7_signaled_monotone (f : Nat) :
    (∀ s s2 : S, Relation.ReflTransGen Step s s2 →
        fget s.fences f = true → fget s2.fences f = true) ∧
    (∀ s0 s1 s2 s3 : S, Step s0 s1 → Relation.ReflTransGen Step s1 s2 →
        Step s2 s3 → fget s0.fences f = false → fget s1.fences f = true →
        fget s2.fences f = true ∧ fget s3.fences f = true) := by
  have mono : ∀ s s2 : S, Relation.ReflTransGen Step s s2 →
      fget s.fences f = true → fget s2.fences f = true := by
    intro s s2 hr
    induction hr with
    | refl => exact id
    | tail hab hbc ih => exact fun h0 => step_preserves_true hbc f (ih h0)
  refine ⟨mono, ?_⟩
  intro s0 s1 s2 s3 h01 h12 h23 hf0 hf1
  have h2 := mono s1 s2 h12 hf1
  exact ⟨h2, step_preserves_true h23 f h2⟩

theorem claim_C7_witness :
    fget sSignaled.fences 0 = true ∧ fget (tick sSignaled 1).fences 0 = true :=
  ⟨by decide,
   (claim_C7_signaled_monotone 0).1 sSignaled (tick sSignaled 1)
     (Relation.ReflTransGen.single (Step.tick sSignaled 1)) (by decide)⟩

/-- C9: the expiry timer is one-shot: a due pending firing signals the
fence and retires the timer without rescheduling (same deadline, pending
bit cleared), firing again afterwards is a no-op (idempotence), and a
firing on an already-signaled fence leaves every fence flag unchanged (a
safe no-op). -/
theorem claim_C9_timer_one_shot (s : S) (f : Nat) :
    fireTimer (fireTimer s f) f = fireTimer s f ∧
    (∀ t : TimerSt, lget s.timers f = some t → t.pending = true →
        t.deadline ≤ s.now → f < s.fences.length →
        fget (fireTimer s f).fences f = true ∧
        lget (fireTimer s f).timers f = some ⟨t.deadline, false⟩) ∧
    (fget s.fences f = true → (fireTimer s f).fences = s.fences) := by
  refine ⟨?_, ?_, ?_⟩
  · cases hlt : lget s.timers f with
    | none => simp [fireTimer, hlt]
    | some t =>
      by_cases hc : t.pending = true ∧ t.deadline ≤ s.now
      · have hlen : f < s.timers.length := lget_lt_length hlt
        simp [fireTimer, hlt, hc, lget_lset_self s.timers f _ hlen]
      · simp [fireTimer, hlt, hc]
  · intro t hlt hp hd hflen
    have hlen : f < s.timers.length := lget_lt_length hlt
    constructor
    · by_cases hsig : fget s.fences f
      · simp [fireTimer, hlt, hp, hd, fenceSignal, hsig]
      · simp [fireTimer, hlt, hp, hd, fenceSignal, hsig,
          fget_lset_self hflen]
    · simp [fireTimer, hlt, hp, hd, lget_lset_self s.timers f _ hlen]
  · intro hsig
    cases hlt : lget s.timers f with
    | none => simp [fireTimer, hlt]
    | some t =>
      by_cases hc : t.pending = true ∧ t.deadline ≤ s.now
      · simp [fireTimer, hlt, hc, fenceSignal, hsig]
      · simp [fireTimer, hlt, hc]

theorem claim_C9_witness :
    lget sArmed.timers 0 = some ⟨0, true⟩ ∧
    fget (fireTimer sArmed 0).fences 0 = true ∧
    lget (fireTimer sArmed 0).timers 0 = some ⟨0, false⟩ ∧
    fireTimer (fireTimer sArmed 0) 0 = fireTimer sArmed 0 := by
  have h := claim_C9_timer_one_shot sArmed 0
  have h2 := h.2.1 ⟨0, true⟩ rfl rfl (Nat.le_refl 0) (by decide)
  exact ⟨rfl, h2.1, h2.2, h.1⟩

/-- C8: handle allocation always reserves the lowest vacant index and that
index is nonzero (handle 0 is never returned), and the first successful
attach on a fresh session (empty table) writes `out_fence = 1`. -/
theorem claim_C8_lowest_nonzero_handle :
    (∀ (t : Table) (e : Entry),
        1 ≤ (xaAlloc t e).1 ∧ tget t (xaAlloc t e).1 = none ∧
        ∀ j, 1 ≤ j → j < (xaAlloc t e).1 → tget t j ≠ none) ∧
    (∀ (s : S) (a : AttachArgs) (resv : Resv), s.table = [] →
        a.flags &&& notWriteMask = 0 → a.pad = 0 →
        lookupBuf s.bufs a.handle = some resv →
        testSignaled resv (usageRw (a.flags &&& vgemFenceWrite != 0)) = true →
        resv.addErr = none →
        (attach s a).1 = Outcome.ok 0 ∧ (attach s a).2.1 = some 1) := by
  constructor
  · exact fun t e => ⟨xaAlloc_pos t e, xaAlloc_free t e, xaAlloc_lowest t e⟩
  · intro s a resv htab h1 h2 h3 h4 h5
    rw [attach_publish_eq s a resv h1 h2 h3 h4 h5]
    refine ⟨rfl, ?_⟩
    rw [htab]
    simp [xaAlloc, findFreeFrom, tget, lget]

theorem claim_C8_witness :
    sOpen.table = [] ∧ (attach sOpen aRead).1 = Outcome.ok 0 ∧
    (attach sOpen aRead).2.1 = some 1 := by
  have h := claim_C8_lowest_nonzero_handle.2 sOpen aRead resvOpen rfl
    (by decide) rfl (by decide) (by decide) rfl
  exact ⟨rfl, h.1, h.2⟩

theorem signal_table_consumes (s : S) (g : SignalArgs) (h : g.flags = 0) :
    (signal s g).2.table = tset s.table g.fence (some none) := by
  cases hold : tget s.table g.fence with
  | none => simp [signal, h, xaReplace, hold]
  | some e =>
    cases e with
    | none => simp [signal, h, xaReplace, hold]
    | some fid =>
      by_cases hsig : fget s.fences fid
      · simp [signal, h, xaReplace, hold, hsig]
      · rcases hfs : fenceSignal s.fences fid with ⟨o, fs⟩
        cases o <;> simp [signal, h, xaReplace, hold, hsig, hfs]

theorem attach_table_cases (s : S) (a : AttachArgs) :
    (attach s a).2.2.table = s.table ∨
    (attach s a).2.2.table = (xaAlloc s.table (some s.fences.length)).2 := by
  unfold attach vgemFenceCreate
  by_cases h1 : a.flags &&& notWriteMask ≠ 0
  · left
    simp [h1]
  by_cases h2 : a.pad ≠ 0
  · left
    simp [h1, h2]
  cases hlk : lookupBuf s.bufs a.handle with
  | none =>
    left
    simp [h1, h2, hlk]
  | some resv =>
    cases ht : testSignaled resv (usageRw (a.flags &&& vgemFenceWrite != 0)) with
    | false =>
      left
      rcases hfs : fenceSignal (s.fences ++ [false]) s.fences.length with ⟨o, fs⟩
      cases o <;> simp [h1, h2, hlk, ht, hfs]
    | true =>
      cases hadd : resv.addErr with
      | none =>
        right
        simp [h1, h2, hlk, ht, addFences, hadd]
      | some e =>
        left
        rcases hfs : fenceSignal (s.fences ++ [false]) s.fences.length with ⟨o, fs⟩
        cases o <;> simp [h1, h2, hlk, ht, addFences, hadd, hfs]

/-- C10: a `signal` call with valid flags leaves the xarray entry of the
consumed handle allocated, holding the emptied box; allocation only ever
returns an index with no entry at all; and no `attach` turns an emptied
slot back into a vacant one — hence within a live session a consumed
handle is never handed out again by a later attach. -/
theorem claim_C10_consumed_never_reallocated :
    (∀ (s : S) (g : SignalArgs), g.flags = 0 →
        tget (signal s g).2.table g.fence = some none) ∧
    (∀ (t : Table) (e : Entry) (h : Nat), tget t h = some none →
        (xaAlloc t e).1 ≠ h) ∧
    (∀ (s : S) (a : AttachArgs) (h : Nat), tget s.table h = some none →
        tget (attach s a).2.2.table h = some none) := by
  refine ⟨?_, ?_, ?_⟩
  · intro s g hg
    rw [signal_table_consumes s g hg, tget_tset_self]
  · intro t e h hcons heq
    have hfree := xaAlloc_free t e
    rw [heq, hcons] at hfree
    cases hfree
  · intro s a h hcons
    rcases attach_table_cases s a with hc | hc
    · rw [hc]
      exact hcons
    · rw [hc]
      have hne : h ≠ (xaAlloc s.table (some s.fences.length)).1 := by
        intro heq
        have hfree := xaAlloc_free s.table (some s.fences.length)
        rw [← heq, hcons] at hfree
        cases hfree
      rw [xaAlloc_preserves _ _ h hne]
      exact hcons

theorem claim_C10_witness :
    tget (signal sSignaled ⟨1, 0⟩).2.table 1 = some none ∧
    (xaAlloc sConsumed.table (some 5)).1 ≠ 1 ∧
    tget (attach sConsumed aRead).2.2.table 1 = some none := by
  have h := claim_C10_consumed_never_reallocated
  exact ⟨h.1 sSignaled ⟨1, 0⟩ rfl,
    h.2.1 sConsumed.table (some 5) 1 (by decide),
    h.2.2 sConsumed aRead 1 (by decide)⟩

/-- C5: a fence created by a successful attach is armed with the fixed
10-second deadline (10000 ms here) and starts unsignaled; if the deadline
passes without a manual signal, the timer firing signals it automatically,
and a subsequent signal call on its handle returns `ETIMEDOUT` — signal on
a handle whose fence is already signaled fails with `ETIMEDOUT`, not
success. -/
theorem claim_C5_auto_expiry_timeout (s : S) (a : AttachArgs) (resv : Resv)
    (hwf : s.timers.length = s.fences.length)
    (h1 : a.flags &&& notWriteMask = 0) (h2 : a.pad = 0)
    (h3 : lookupBuf s.bufs a.handle = some resv)
    (h4 : testSignaled resv (usageRw (a.flags &&& vgemFenceWrite != 0)) = true)
    (h5 : resv.addErr = none) :
    timeoutMs = 10 * 1000 ∧
    (attach s a).1 = Outcome.ok 0 ∧
    ∃ h, (attach s a).2.1 = some h ∧
      lget (attach s a).2.2.timers s.fences.length =
        some ⟨s.now + timeoutMs, true⟩ ∧
      fget (attach s a).2.2.fences s.fences.length = false ∧
      tget (attach s a).2.2.table h = some (some s.fences.length) ∧
      ∀ d, timeoutMs ≤ d →
        fget (fireTimer (tick (attach s a).2.2 d) s.fences.length).fences
          s.fences.length = true ∧
        (signal (fireTimer (tick (attach s a).2.2 d) s.fences.length)
          ⟨h, 0⟩).1 = Outcome.err KErr.ETIMEDOUT := by
  rw [attach_publish_eq s a resv h1 h2 h3 h4 h5]
  have hlt : lget (s.timers ++ [(⟨s.now + timeoutMs, true⟩ : TimerSt)])
      s.fences.length = some ⟨s.now + timeoutMs, true⟩ := by
    rw [← hwf]
    exact lget_append_self _ _
  have hff : fget (s.fences ++ [false]) s.fences.length = false :=
    fget_append_self _ _
  refine ⟨rfl, rfl, (xaAlloc s.table (some s.fences.length)).1, rfl, hlt, hff,
    xaAlloc_stores _ _, ?_⟩
  intro d hd
  have hdl : s.now + timeoutMs ≤ s.now + d := Nat.add_le_add_left hd s.now
  have hft : fget (s.fences ++ [true]) s.fences.length = true :=
    fget_append_self _ _
  constructor
  · simp [fireTimer, tick, hlt, hdl, fenceSignal, hff, lset_append_self, hft]
  · simp [signal, fireTimer, tick, hlt, hdl, fenceSignal, hff,
      lset_append_self, hft, xaReplace, xaAlloc_stores]

theorem claim_C5_witness :
    timeoutMs = 10 * 1000 ∧
    (attach sOpen aRead).1 = Outcome.ok 0 ∧
    fget (fireTimer (tick (attach sOpen aRead).2.2 timeoutMs) 0).fences 0 =
      true ∧
    (signal (fireTimer (tick (attach sOpen aRead).2.2 timeoutMs) 0)
      ⟨1, 0⟩).1 = Outcome.err KErr.ETIMEDOUT := by
  have h := claim_C5_auto_expiry_timeout sOpen aRead resvOpen rfl
    (by decide) rfl (by decide) (by decide) rfl
  obtain ⟨hms, hok, hh, hout, htm, hfg, htb, hall⟩ := h
  have he : (attach sOpen aRead).2.1 = some 1 := by decide
  rw [he] at hout
  have h1 : hh = 1 := (Option.some.inj hout).symm
  subst h1
  have hinst := hall timeoutMs (Nat.le_refl timeoutMs)
  exact ⟨hms, hok, hinst.1, hinst.2⟩

end RustVgem
